import Mathlib

/-!
# Verification of the torrent-record normalization engine

Shallow embedding of `src/server/models/Torrent.js`: the raw client snapshot
is a string-keyed map of optional string values (JavaScript objects whose
fields are either strings or `undefined`), the derivers are translated
one-to-one, and JavaScript exceptions are modelled with `Except Unit`.
JavaScript numbers are idealized as rationals extended with `NaN` and the
two infinities; builtin string/number operations (`substr`, `indexOf`,
`split`, `toFixed`, `decodeURIComponent`, `ToNumber`) are modelled after
their ECMAScript definitions (decimal string literals; the `-0` distinction
is not represented).
-/

namespace Flood

/-- An idealized ECMAScript number: `NaN`, the infinities, or a rational. -/
inductive JSNum where
  | nan
  | inf
  | ninf
  | num (q : ℚ)
  deriving DecidableEq, Repr

namespace JSNum

/-- ECMAScript `<` on numbers (`NaN` compares false with everything). -/
def lt : JSNum → JSNum → Bool
  | nan, _ => false
  | _, nan => false
  | ninf, ninf => false
  | ninf, _ => true
  | _, ninf => false
  | inf, _ => false
  | _, inf => true
  | num a, num b => a < b

/-- ECMAScript `>` on numbers. -/
def gt (a b : JSNum) : Bool := lt b a

/-- ECMAScript subtraction. -/
def sub : JSNum → JSNum → JSNum
  | nan, _ => nan
  | _, nan => nan
  | inf, inf => nan
  | ninf, ninf => nan
  | inf, _ => inf
  | ninf, _ => ninf
  | _, inf => ninf
  | _, ninf => inf
  | num a, num b => num (a - b)

/-- ECMAScript division (zero denominators yield infinities or `NaN`;
the sign of zero is not modelled, so `q / 0` with `q > 0` is `+∞`). -/
def div : JSNum → JSNum → JSNum
  | nan, _ => nan
  | _, nan => nan
  | inf, inf => nan
  | inf, ninf => nan
  | ninf, inf => nan
  | ninf, ninf => nan
  | inf, num b => if b < 0 then ninf else inf
  | ninf, num b => if b < 0 then inf else ninf
  | num _, inf => num 0
  | num _, ninf => num 0
  | num a, num b =>
    if b = 0 then (if a = 0 then nan else if a < 0 then ninf else inf)
    else num (a / b)

/-- ECMAScript multiplication. -/
def mul : JSNum → JSNum → JSNum
  | nan, _ => nan
  | _, nan => nan
  | inf, inf => inf
  | inf, ninf => ninf
  | ninf, inf => ninf
  | ninf, ninf => inf
  | inf, num b => if b = 0 then nan else if b < 0 then ninf else inf
  | num a, inf => if a = 0 then nan else if a < 0 then ninf else inf
  | ninf, num b => if b = 0 then nan else if b < 0 then inf else ninf
  | num a, ninf => if a = 0 then nan else if a < 0 then inf else ninf
  | num a, num b => num (a * b)

end JSNum

/-! ## ECMAScript string helpers -/

/-- The characters trimmed by `String.prototype.trim` and skipped by
`ToNumber` on strings (the common ASCII whitespace; exotic Unicode space
code points are not modelled). -/
def isJsWhitespace (c : Char) : Bool :=
  c = ' ' ∨ c = '\t' ∨ c = '\n' ∨ c = '\r' ∨ c = '\x0b' ∨ c = '\x0c'

/-- `String.prototype.trim`. -/
def jsTrim (s : List Char) : List Char :=
  ((s.dropWhile isJsWhitespace).reverse.dropWhile isJsWhitespace).reverse

/-- Index of the first occurrence of `pat` in `s`, if any. -/
def findSubstrIdx (pat : List Char) : List Char → Option Nat
  | [] => if pat = [] then some 0 else none
  | c :: tail =>
    if pat.isPrefixOf (c :: tail) then some 0
    else (findSubstrIdx pat tail).map (· + 1)

/-- `String.prototype.indexOf` specialized to a substring pattern:
the first occurrence index, or `-1`. -/
def jsIndexOf (s pat : List Char) : Int :=
  match findSubstrIdx pat s with
  | some k => (k : Int)
  | none => -1

/-- `String.prototype.substr(start, length)` as defined in
ECMA-262 Annex B.2.3.1 (negative lengths are clamped to `0`). -/
def jsSubstr (s : List Char) (start len : Int) : List Char :=
  let size : Int := s.length
  let intStart := if start < 0 then max (size + start) 0 else min start size
  let intLength := min (max len 0) size
  let intEnd := min (intStart + intLength) size
  (s.take intEnd.toNat).drop intStart.toNat

/-- `String.prototype.split` with a single-character separator. -/
def splitOnChar (sep : Char) : List Char → List (List Char)
  | [] => [[]]
  | c :: rest =>
    if c = sep then [] :: splitOnChar sep rest
    else
      match splitOnChar sep rest with
      | [] => [[c]]
      | piece :: pieces => (c :: piece) :: pieces

/-- One step of `String.prototype.split` with a multi-character separator,
with explicit fuel (the separator is non-empty in all uses, so consuming
`length + 1` fuel always suffices). -/
def splitOnSubstrFuel (pat : List Char) : Nat → List Char → List (List Char)
  | 0, s => [s]
  | fuel + 1, s =>
    match findSubstrIdx pat s with
    | none => [s]
    | some k => s.take k :: splitOnSubstrFuel pat fuel (s.drop (k + pat.length))

/-- `String.prototype.split` with a multi-character separator. -/
def splitOnSubstr (pat s : List Char) : List (List Char) :=
  splitOnSubstrFuel pat (s.length + 1) s

/-! ## ECMAScript `ToNumber` on optional string values -/

/-- Digit accumulator: the value of a digit run, `none` when a non-digit
appears. -/
def digitsValAux (acc : Nat) : List Char → Option Nat
  | [] => some acc
  | c :: rest =>
    if c.isDigit then digitsValAux (acc * 10 + (c.toNat - '0'.toNat)) rest
    else none

/-- The value of a digit run (`some 0` on the empty run, `none` when a
non-digit appears). -/
def digitsVal (l : List Char) : Option Nat := digitsValAux 0 l

/-- Value of `intPart.fracPart` as a rational; fails unless both parts are
digit runs with at least one digit in total. -/
def decimalVal (intPart fracPart : List Char) : Option ℚ :=
  if intPart = [] ∧ fracPart = [] then none
  else
    match digitsVal intPart, digitsVal fracPart with
    | some i, some f => some ((i : ℚ) + (f : ℚ) / (10 : ℚ) ^ fracPart.length)
    | _, _ => none

/-- Split a character list at the first occurrence of one of two marker
characters; returns the part before and, when a marker was found, the part
strictly after it. -/
def breakAt (m₁ m₂ : Char) : List Char → List Char × Option (List Char)
  | [] => ([], none)
  | c :: rest =>
    if c = m₁ ∨ c = m₂ then ([], some rest)
    else
      match breakAt m₁ m₂ rest with
      | (pre, post) => (c :: pre, post)

/-- An unsigned ECMAScript `StrUnsignedDecimalLiteral`:
`Infinity`, or `digits [. digits] [e sign? digits]`. -/
def parseUnsignedJs (s : List Char) : Option JSNum :=
  if s = "Infinity".toList then some JSNum.inf
  else
    match breakAt 'e' 'E' s with
    | (mant, expPart) =>
      let mantVal :=
        match breakAt '.' '.' mant with
        | (ip, none) => decimalVal ip []
        | (ip, some fp) => decimalVal ip fp
      match mantVal with
      | none => none
      | some q =>
        match expPart with
        | none => some (JSNum.num q)
        | some e =>
          let (sign, digits) :=
            match e with
            | '-' :: rest => ((-1 : Int), rest)
            | '+' :: rest => ((1 : Int), rest)
            | _ => ((1 : Int), e)
          if digits = [] then none
          else
            match digitsVal digits with
            | some n => some (JSNum.num (q * (10 : ℚ) ^ (sign * n)))
            | none => none

/-- ECMAScript `ToNumber` applied to a raw snapshot value: `undefined`
is `NaN`, strings are parsed as decimal literals after trimming (hex,
octal and binary literals are not modelled; unparsable strings are `NaN`,
the empty string is `0`). -/
def jsToNumber (o : Option (List Char)) : JSNum :=
  match o with
  | none => JSNum.nan
  | some s =>
    let t := jsTrim s
    match t with
    | [] => JSNum.num 0
    | '-' :: rest =>
      match parseUnsignedJs rest with
      | some JSNum.inf => JSNum.ninf
      | some (JSNum.num q) => JSNum.num (-q)
      | _ => JSNum.nan
    | '+' :: rest => (parseUnsignedJs rest).getD JSNum.nan
    | _ => (parseUnsignedJs t).getD JSNum.nan

/-! ## `decodeURIComponent` (ECMA-262 §19.2.6.2 Decode, empty reserved set) -/

/-- Value of a hexadecimal digit. -/
def hexDigitVal (c : Char) : Option Nat :=
  if '0' ≤ c ∧ c ≤ '9' then some (c.toNat - '0'.toNat)
  else if 'a' ≤ c ∧ c ≤ 'f' then some (c.toNat - 'a'.toNat + 10)
  else if 'A' ≤ c ∧ c ≤ 'F' then some (c.toNat - 'A'.toNat + 10)
  else none

/-- Read one `%hh` escape at the head of the input, returning the byte and
the rest. -/
def percentByte : List Char → Option (Nat × List Char)
  | '%' :: h₁ :: h₂ :: rest =>
    match hexDigitVal h₁, hexDigitVal h₂ with
    | some a, some b => some (a * 16 + b, rest)
    | _, _ => none
  | _ => none

/-- Read `n` UTF-8 continuation bytes, each written as a `%hh` escape,
extending the code-point accumulator. -/
def contBytes : Nat → Nat → List Char → Option (Nat × List Char)
  | 0, acc, cs => some (acc, cs)
  | n + 1, acc, cs =>
    match percentByte cs with
    | some (b, rest) =>
      if 0x80 ≤ b ∧ b < 0xC0 then contBytes n (acc * 64 + (b - 0x80)) rest
      else none
    | none => none

/-- `decodeURIComponent` with explicit fuel; every step consumes at least
one input character, so `length + 1` fuel always suffices. `none` models
the `URIError` thrown on malformed escapes (bad hex digits, invalid UTF-8
leading/continuation bytes, overlong encodings, surrogates, out-of-range
code points). -/
def decodeURIFuel : Nat → List Char → Option (List Char)
  | _, [] => some []
  | 0, _ :: _ => none
  | fuel + 1, c :: rest =>
    if c = '%' then
      match percentByte (c :: rest) with
      | none => none
      | some (b, rest₂) =>
        if b < 0x80 then (decodeURIFuel fuel rest₂).map (Char.ofNat b :: ·)
        else if 0xC0 ≤ b ∧ b < 0xE0 then
          match contBytes 1 (b - 0xC0) rest₂ with
          | some (v, rest₃) =>
            if 0x80 ≤ v then (decodeURIFuel fuel rest₃).map (Char.ofNat v :: ·)
            else none
          | none => none
        else if 0xE0 ≤ b ∧ b < 0xF0 then
          match contBytes 2 (b - 0xE0) rest₂ with
          | some (v, rest₃) =>
            if 0x800 ≤ v ∧ ¬(0xD800 ≤ v ∧ v ≤ 0xDFFF) then
              (decodeURIFuel fuel rest₃).map (Char.ofNat v :: ·)
            else none
          | none => none
        else if 0xF0 ≤ b ∧ b < 0xF8 then
          match contBytes 3 (b - 0xF0) rest₂ with
          | some (v, rest₃) =>
            if 0x10000 ≤ v ∧ v ≤ 0x10FFFF then
              (decodeURIFuel fuel rest₃).map (Char.ofNat v :: ·)
            else none
          | none => none
        else none
    else (decodeURIFuel fuel rest).map (c :: ·)

/-- `decodeURIComponent`; `none` models a thrown `URIError`. -/
def decodeURIComp (s : List Char) : Option (List Char) :=
  decodeURIFuel (s.length + 1) s

/-! ## The raw snapshot and the status vocabulary -/

/-- A raw client snapshot: a JavaScript object whose fields are strings or
`undefined` (`none` models an absent/undefined/null field). -/
def ClientData : Type := String → Option (List Char)

/-- Modelled from the spec: the status label vocabulary provided by the
external `torrentStatusMap` collaborator (`shared/constants/torrentStatusMap`
is not under `src/`); the spec names exactly these nine tags. -/
inductive StatusTag where
  | checking
  | complete
  | seeding
  | paused
  | stopped
  | downloading
  | error
  | active
  | inactive
  deriving DecidableEq, Repr

/-- The reserved delimiter `@!@` used for trackers and peer counts. -/
def atDelim : List Char := ['@', '!', '@']

/-! ## Field derivers (`Torrent.js` lines 113–260) -/

/-- `getPeerCount` (lines 113–117): `string.substr(0, string.indexOf('@!@'))`.
Throws (`.error`) when the field is `undefined` (`undefined.indexOf` is a
`TypeError` in JavaScript). -/
def getPeerCount (o : Option (List Char)) : Except Unit (List Char) :=
  match o with
  | none => Except.error ()
  | some s => Except.ok (jsSubstr s 0 (jsIndexOf s atDelim))

/-- `getEta` (lines 119–133). The `secondsToDuration` formatter lives in
`shared/util/formatUtil`, outside `src/`, so it is an opaque parameter
(the spec specifies only that its output is passed through unchanged). -/
def getEta (fmt : JSNum → List Char) (raw : ClientData) : List Char :=
  let rate := jsToNumber (raw "downloadRate")
  let completed := jsToNumber (raw "bytesDone")
  let total := jsToNumber (raw "sizeBytes")
  if (JSNum.gt rate (JSNum.num 0)) = true then fmt (JSNum.div (JSNum.sub total completed) rate)
  else "Infinity".toList

/-- `Number(x.toFixed(d))`: round to `d` decimal places, ties away from
zero, per ECMA-262 `Number.prototype.toFixed` followed by `ToNumber` of the
produced decimal string. `NaN` and the infinities round-trip unchanged. -/
def jsToFixedNum (p : JSNum) (d : Nat) : JSNum :=
  match p with
  | JSNum.num q =>
    if q < 0 then JSNum.num (-((⌊(-q) * (10 : ℚ) ^ d + 1 / 2⌋ : ℚ) / (10 : ℚ) ^ d))
    else JSNum.num ((⌊q * (10 : ℚ) ^ d + 1 / 2⌋ : ℚ) / (10 : ℚ) ^ d)
  | other => other

/-- `getPercentComplete` (lines 135–145). -/
def getPercentComplete (raw : ClientData) : JSNum :=
  let percentComplete :=
    JSNum.mul (JSNum.div (jsToNumber (raw "bytesDone")) (jsToNumber (raw "sizeBytes")))
      (JSNum.num 100)
  if (JSNum.gt percentComplete (JSNum.num 0)) = true ∧
      (JSNum.lt percentComplete (JSNum.num 10)) = true then
    jsToFixedNum percentComplete 2
  else if (JSNum.gt percentComplete (JSNum.num 10)) = true ∧
      (JSNum.lt percentComplete (JSNum.num 100)) = true then
    jsToFixedNum percentComplete 1
  else percentComplete

/-- `getStatus` (lines 147–187). Throws (`.error`) when `message` is
`undefined` (`undefined.length` is a `TypeError`); the flag comparisons
with `===` are `false` on `undefined`, and `message.length` is evaluated
after the primary if-chain, so the thrown case yields no result at all. -/
def getStatus (raw : ClientData) : Except Unit (List StatusTag) :=
  let isHashChecking := raw "isHashChecking"
  let isComplete := raw "isComplete"
  let isOpen := raw "isOpen"
  let uploadRate := raw "uploadRate"
  let downloadRate := raw "downloadRate"
  let state := raw "state"
  match raw "message" with
  | none => Except.error ()
  | some message =>
    let primary : List StatusTag :=
      if isHashChecking = some ['1'] then [StatusTag.checking]
      else if isComplete = some ['1'] ∧ isOpen = some ['1'] ∧ state = some ['1'] then
        [StatusTag.complete, StatusTag.seeding]
      else if isComplete = some ['1'] ∧ isOpen = some ['1'] ∧ state = some ['0'] then
        [StatusTag.paused]
      else if isComplete = some ['1'] ∧ isOpen = some ['0'] then
        [StatusTag.stopped, StatusTag.complete]
      else if isComplete = some ['0'] ∧ isOpen = some ['1'] ∧ state = some ['1'] then
        [StatusTag.downloading]
      else if isComplete = some ['0'] ∧ isOpen = some ['1'] ∧ state = some ['0'] then
        [StatusTag.paused]
      else if isComplete = some ['0'] ∧ isOpen = some ['0'] then
        [StatusTag.stopped]
      else []
    let withError := primary ++ (if message ≠ [] then [StatusTag.error] else [])
    Except.ok (withError ++
      [if uploadRate = some ['0'] ∧ downloadRate = some ['0'] then StatusTag.inactive
       else StatusTag.active])

/-- Lexicographic order on encoded tokens: JavaScript's default
`Array.prototype.sort` comparator on strings (`<` on code units; the
tokens here are percent-encoded, hence ASCII-dominated, so the code-point
order used by `List Char`'s linear order coincides with it). -/
def tokenLe (a b : List Char) : Prop := a ≤ b

instance : DecidableRel tokenLe := fun a b => inferInstanceAs (Decidable (a ≤ b))

/-- `getTags` (lines 189–199): empty string short-circuit, split on comma,
stable lexicographic sort of the encoded tokens, then percent-decode each.
`.error` models the `TypeError` on an `undefined` field or the `URIError`
thrown by `decodeURIComponent` on a malformed token. -/
def getTags (o : Option (List Char)) : Except Unit (List (List Char)) :=
  match o with
  | none => Except.error ()
  | some tags =>
    if tags = [] then Except.ok []
    else
      match ((splitOnChar ',' tags).insertionSort tokenLe).mapM decodeURIComp with
      | some decoded => Except.ok decoded
      | none => Except.error ()

/-- The registrable-domain trimming done per matched hostname in
`getTrackers` (lines 220–231): keep the rightmost 2 dot-separated labels,
or 3 when there are more than 2 labels and the label at position
`length - 2` has at most 3 characters. (The source's `subsetMinLength`
variable is declared but unused; the comparison uses the literal `3`.) -/
def trimDomain (domain : List Char) : List Char :=
  let domainSubsets := splitOnChar '.' domain
  let desiredSubsets :=
    if domainSubsets.length > 2 ∧
        (domainSubsets.getD (domainSubsets.length - 2) []).length ≤ 3 then 3
    else 2
  List.intercalate ['.'] (domainSubsets.drop (domainSubsets.length - desiredSubsets))

/-- `getTrackers` (lines 209–238). The hostname-capturing pattern
`regEx.domainName` lives in `shared/util/regEx`, outside `src/`; per the
spec it is a scheme-agnostic hostname capture, modelled as an opaque
matcher `domainName` returning the captured group (`none` = no match).
The source skips a falsy capture (`domain && domain[1]`), i.e. an empty
captured string contributes nothing. Throws on an `undefined` field. -/
def getTrackers (domainName : List Char → Option (List Char)) (o : Option (List Char)) :
    Except Unit (List (List Char)) :=
  match o with
  | none => Except.error ()
  | some s =>
    Except.ok ((splitOnSubstr atDelim s).foldl
      (fun trackerDomains tracker =>
        match domainName tracker with
        | some domain =>
          if domain = [] then trackerDomains else trackerDomains ++ [trimDomain domain]
        | none => trackerDomains)
      [])

/-- `cleanUpDate` (lines 248–260): falsy (undefined/null/empty) → `""`;
trim; the literal `"0"` → `""`; otherwise the trimmed string. -/
def cleanUpDate (o : Option (List Char)) : List Char :=
  match o with
  | none => []
  | some dirtyDate =>
    if dirtyDate = [] then []
    else
      let date := jsTrim dirtyDate
      if date = ['0'] then [] else date

/-! ## Record builder (`Torrent.js` lines 11–111, 262–266) -/

/-- A value stored in the produced record: `undefined`, a string, a number,
a list of strings (tags/trackers), or the status tag list. -/
inductive JSVal where
  | undef
  | str (s : List Char)
  | numv (n : JSNum)
  | strList (l : List (List Char))
  | tagList (l : List StatusTag)
  deriving DecidableEq, Repr

/-- The produced record: a JavaScript object modelled as an association
list in insertion order (assignment to an existing key replaces the value
in place). -/
abbrev Record : Type := List (String × JSVal)

/-- The external collaborators whose implementations live outside `src/`:
the `formatUtil.secondsToDuration` formatter and the `regEx.domainName`
hostname matcher, specified only at their interface boundaries. -/
structure Collab where
  secondsToDuration : JSNum → List Char
  domainName : List Char → Option (List Char)

/-- `DEFAULT_DATA_KEYS` (lines 11–45): the 31 default field names. -/
def DEFAULT_DATA_KEYS : List String :=
  ["hash", "added", "bytesDone", "downloadRate", "downloadTotal", "eta", "name",
   "percentComplete", "ratio", "sizeBytes", "status", "totalPeers", "totalSeeds",
   "uploadTotal", "uploadRate", "priority", "trackers", "creationDate",
   "freeDiskSpace", "connectedPeers", "connectedSeeds", "message", "basePath",
   "ignoreScheduler", "comment", "isPrivate", "directory", "filename",
   "isMultiFile", "tags"]

/-- Modelled from the spec: `stringUtil.capitalize` (`shared/util/stringUtil`
is not under `src/`); per the spec it is the generic capitalization helper,
uppercasing the first character. -/
def jsCapitalize (s : String) : String :=
  match s.data with
  | [] => s
  | c :: cs => String.mk (c.toUpper :: cs)

/-- The `requestedData` option as a JavaScript value: absent, an array of
field-name strings, a truthy non-array, or a falsy non-array value such as
`null`, `0`, `""` or `false`. -/
inductive RequestedData where
  | absent
  | arr (l : List String)
  | otherTruthy
  | otherFalsy
  deriving DecidableEq

/-- The options structure: `{ currentTime, requestedData }`. -/
structure JSOpts where
  requestedData : RequestedData
  currentTime : Option ℚ

/-- Resolution of the field list (lines 82–90): the chosen keys and whether
the `console.warn` fallback message was emitted. `if (opts.requestedData &&
_.isArray(opts.requestedData))` takes arrays; `else if (opts.requestedData)`
warns only for truthy non-arrays, so a falsy non-array silently uses the
defaults. -/
def resolveRequestedData : RequestedData → List String × Bool
  | RequestedData.absent => (DEFAULT_DATA_KEYS, false)
  | RequestedData.arr l => (l, false)
  | RequestedData.otherTruthy => (DEFAULT_DATA_KEYS, true)
  | RequestedData.otherFalsy => (DEFAULT_DATA_KEYS, false)

/-- Per-key processing (lines 92–106): the dynamic dispatch
`get${capitalize(key)}` finds a transformation method when one exists,
otherwise copies the raw value through. Keys whose capitalization collides
with the internal helpers also dispatch: `PeerCount` reaches
`getPeerCount(clientData)` (a `TypeError`: objects have no `indexOf`), and
`ClientData` reaches `getClientData(clientData, undefined)` (a `TypeError`
reading `requestedData` of `undefined`); both are modelled as thrown
errors. -/
def applyKey (collab : Collab) (raw : ClientData) (key : String) : Except Unit JSVal :=
  let fn := jsCapitalize key
  if fn = "Status" then (getStatus raw).map JSVal.tagList
  else if fn = "Tags" then (getTags (raw "tags")).map JSVal.strList
  else if fn = "Trackers" then (getTrackers collab.domainName (raw "trackers")).map JSVal.strList
  else if fn = "TotalPeers" then (getPeerCount (raw "totalPeers")).map JSVal.str
  else if fn = "TotalSeeds" then (getPeerCount (raw "totalSeeds")).map JSVal.str
  else if fn = "Eta" then Except.ok (JSVal.str (getEta collab.secondsToDuration raw))
  else if fn = "PercentComplete" then Except.ok (JSVal.numv (getPercentComplete raw))
  else if fn = "Added" then Except.ok (JSVal.str (cleanUpDate (raw "added")))
  else if fn = "CreationDate" then Except.ok (JSVal.str (cleanUpDate (raw "creationDate")))
  else if fn = "PeerCount" then Except.error ()
  else if fn = "ClientData" then Except.error ()
  else Except.ok (match raw key with
    | some v => JSVal.str v
    | none => JSVal.undef)

/-- JavaScript object assignment `obj[key] = v`: replace in place when the
key exists, append otherwise. -/
def updateAssoc (r : Record) (k : String) (v : JSVal) : Record :=
  if r.any (fun p => p.1 = k) then r.map (fun p => if p.1 = k then (k, v) else p)
  else r ++ [(k, v)]

/-- The `keysToProcess.forEach` loop (lines 92–106) building `torrentData`
left to right from the accumulator; a thrown deriver error aborts the whole
construction. -/
def buildLoop (collab : Collab) (raw : ClientData) : List String → Record → Except Unit Record
  | [], acc => Except.ok acc
  | k :: ks, acc =>
    match applyKey collab raw k with
    | Except.error e => Except.error e
    | Except.ok v => buildLoop collab raw ks (updateAssoc acc k v)

/-- The full `torrentData` construction, starting from the empty object. -/
def buildRecord (collab : Collab) (raw : ClientData) (keys : List String) :
    Except Unit Record :=
  buildLoop collab raw keys []

/-- The mutable `Torrent` instance state: `lastUpdated` and `torrentData`
(both `undefined` on a freshly allocated instance). -/
structure TorrentState where
  lastUpdated : Option ℚ
  torrentData : Option Record

/-- The `data` getter (lines 62–67): `Object.assign({}, this.torrentData)` —
an empty record when `torrentData` is still `undefined`, otherwise a fresh
shallow copy carrying the same entries. -/
def dataGetter (st : TorrentState) : Record :=
  match st.torrentData with
  | none => []
  | some r => r

/-- `getClientData` (lines 81–111): resolve the key list, build the record,
hand `(this.data, torrentData)` to the external notification service
(modelled by returning the argument pair), and return the new record. -/
def getClientData (collab : Collab) (st : TorrentState) (raw : ClientData)
    (opts : JSOpts) : Except Unit (Record × (Record × Record)) :=
  let keysToProcess := (resolveRequestedData opts.requestedData).1
  match buildRecord collab raw keysToProcess with
  | Except.error e => Except.error e
  | Except.ok torrentData => Except.ok (torrentData, (dataGetter st, torrentData))

/-- `opts.currentTime || Date.now()` — the `||` falls through on any falsy
value, including `0`. -/
def resolveTime (currentTime : Option ℚ) (now : ℚ) : ℚ :=
  match currentTime with
  | some t => if t = 0 then now else t
  | none => now

/-- `updateData` (lines 262–266): stamp `lastUpdated`, rebuild and commit
`torrentData`. Returns the new state together with the `(previous, new)`
pair handed to the notifier. -/
def runUpdate (collab : Collab) (st : TorrentState) (raw : ClientData)
    (opts : JSOpts) (now : ℚ) : Except Unit (TorrentState × (Record × Record)) :=
  match getClientData collab st raw opts with
  | Except.error e => Except.error e
  | Except.ok (torrentData, call) =>
    Except.ok ({ lastUpdated := some (resolveTime opts.currentTime now),
                 torrentData := some torrentData }, call)

/-- The constructor (lines 48–56): a falsy `clientData` returns an empty
instance without touching anything; otherwise it runs the same path as
`updateData` starting from the freshly allocated (all-`undefined`) state. -/
def construct (collab : Collab) (clientData : Option ClientData) (opts : JSOpts)
    (now : ℚ) : Except Unit (TorrentState × Option (Record × Record)) :=
  match clientData with
  | none => Except.ok ({ lastUpdated := none, torrentData := none }, none)
  | some raw =>
    match runUpdate collab { lastUpdated := none, torrentData := none } raw opts now with
    | Except.error e => Except.error e
    | Except.ok (st, call) => Except.ok (st, some call)

/-! ## Spec-side definitions (written from the spec's words, for the
refinement theorems) -/

/-- Spec §4.4: the three-tier rounding policy on the computed percentage
`p`: round to 2 decimals on the open interval `(0, 10)`, to 1 decimal on
the open interval `(10, 100)`, and return the value unchanged in every
other case (`p ≤ 0`, `p = 10`, `p ≥ 100`, `NaN`; the infinities fall under
the unchanged cases). -/
def specPercentPolicy : JSNum → JSNum
  | JSNum.num q =>
    if 0 < q ∧ q < 10 then jsToFixedNum (JSNum.num q) 2
    else if 10 < q ∧ q < 100 then jsToFixedNum (JSNum.num q) 1
    else JSNum.num q
  | other => other

/-- Spec §4.3: if `downloadRate > 0`, the formatted duration of
`(sizeBytes - bytesDone) / downloadRate` seconds; in every other case
(rate zero, negative, or non-numeric) the literal sentinel `"Infinity"`.
Whatever the formatter produces is passed through without clamping. -/
def specEta (fmt : JSNum → List Char) (raw : ClientData) : List Char :=
  let seconds :=
    JSNum.div (JSNum.sub (jsToNumber (raw "sizeBytes")) (jsToNumber (raw "bytesDone")))
      (jsToNumber (raw "downloadRate"))
  match jsToNumber (raw "downloadRate") with
  | JSNum.nan => "Infinity".toList
  | JSNum.ninf => "Infinity".toList
  | JSNum.inf => fmt seconds
  | JSNum.num q => if 0 < q then fmt seconds else "Infinity".toList

/-! ## Lemmas about the ECMAScript helpers -/

/-- `substr(0, k)` with a non-negative `k` is `take k`. -/
theorem jsSubstr_zero_nat (s : List Char) (k : Nat) :
    jsSubstr s 0 (k : Int) = s.take k := by
  unfold jsSubstr
  have hsize : (0 : Int) ≤ (s.length : Int) := Int.ofNat_nonneg _
  have h0 : ¬((0 : Int) < 0) := by omega
  simp only [if_neg h0]
  have hstart : min (0 : Int) (s.length : Int) = 0 := by omega
  have hmax : max (k : Int) 0 = (k : Int) := by omega
  rw [hstart, hmax]
  have hend : min ((0 : Int) + min (k : Int) (s.length : Int)) (s.length : Int)
      = min (k : Int) (s.length : Int) := by omega
  rw [hend]
  have htonat : (min (k : Int) (s.length : Int)).toNat = min k s.length := by omega
  rw [htonat]
  simp [List.take_take]

/-- `substr(0, -1)` is the empty string (the negative length is clamped
to zero). -/
theorem jsSubstr_zero_neg_one (s : List Char) : jsSubstr s 0 (-1) = [] := by
  unfold jsSubstr
  have h0 : ¬((0 : Int) < 0) := by omega
  simp only [if_neg h0]
  have hlen : min (max (-1 : Int) 0) (s.length : Int) = 0 := by omega
  have hstart : min (0 : Int) (s.length : Int) = 0 := by omega
  rw [hlen, hstart]
  simp

/-! ## Claim C4 — peer/seed count extraction -/

/-- C4 counterexample: on the delimiter-free input `"5"`, `getPeerCount`
returns the empty string, not the whole input as the claim states.
`indexOf` yields `-1` and `substr(0, -1)` clamps the negative length to
`0`, so the result is `""`. -/
theorem getPeerCount_no_delim_not_whole :
    getPeerCount (some ['5']) = Except.ok [] ∧
      getPeerCount (some ['5']) ≠ Except.ok ['5'] := by
  constructor
  · rfl
  · intro h
    rw [show getPeerCount (some ['5']) = Except.ok [] from rfl] at h
    injection h with h'
    simp at h'

/-- C4 amended: on every string input, `getPeerCount` returns (without
throwing) the substring strictly before the first occurrence of the
reserved delimiter `@!@`; when the delimiter is absent it returns the
empty string (not the whole string: `substr(0, -1)` clamps to length 0). -/
theorem getPeerCount_before_first_delim (s : List Char) :
    getPeerCount (some s) =
      Except.ok (match findSubstrIdx atDelim s with
        | some k => s.take k
        | none => []) := by
  show Except.ok (jsSubstr s 0 (jsIndexOf s atDelim)) = _
  unfold jsIndexOf
  cases h : findSubstrIdx atDelim s with
  | none => rw [jsSubstr_zero_neg_one]
  | some k => rw [jsSubstr_zero_nat]

/-! ## Claim C5 — percent-complete rounding policy -/

/-- C5: for every raw snapshot, `getPercentComplete` computes
`p = bytesDone / sizeBytes * 100` and applies the spec's three-tier
rounding policy with open-interval boundaries: 2 decimals on `0 < p < 10`,
1 decimal on `10 < p < 100`, and the unrounded value in every other case
(`p ≤ 0`, `p = 10`, `p ≥ 100`, `NaN`). -/
theorem getPercentComplete_three_tier (raw : ClientData) :
    getPercentComplete raw =
      specPercentPolicy
        (JSNum.mul (JSNum.div (jsToNumber (raw "bytesDone")) (jsToNumber (raw "sizeBytes")))
          (JSNum.num 100)) := by
  unfold getPercentComplete specPercentPolicy
  cases JSNum.mul (JSNum.div (jsToNumber (raw "bytesDone")) (jsToNumber (raw "sizeBytes")))
      (JSNum.num 100) with
  | nan => simp [JSNum.gt, JSNum.lt]
  | inf => simp [JSNum.gt, JSNum.lt]
  | ninf => simp [JSNum.gt, JSNum.lt]
  | num q => simp [JSNum.gt, JSNum.lt]

/-! ## Claim C8 — ETA derivation -/

/-- C8: for every raw snapshot and every formatter, `getEta` returns the
formatted duration of `(sizeBytes - bytesDone) / downloadRate` seconds when
`downloadRate > 0` (passing negative results to the formatter unclamped),
and the literal sentinel string `"Infinity"` in every other case
(`downloadRate` zero, negative, or non-numeric). -/
theorem getEta_duration_or_infinity (fmt : JSNum → List Char) (raw : ClientData) :
    getEta fmt raw = specEta fmt raw := by
  unfold getEta specEta
  cases h : jsToNumber (raw "downloadRate") with
  | nan => simp [JSNum.gt, JSNum.lt]
  | inf => simp [JSNum.gt, JSNum.lt]
  | ninf => simp [JSNum.gt, JSNum.lt]
  | num q => simp [JSNum.gt, JSNum.lt]

/-! ## Claims C1, C2 — status derivation -/

/-- Spec §4.2, cases 1–8: the first-match primary classification in the
spec's exact priority order, including the asymmetric tag orders of case 2
(`complete`, `seeding`) and case 4 (`stopped`, `complete`), and no primary
tag when no case matches. -/
def specPrimaryTags (raw : ClientData) : List StatusTag :=
  if raw "isHashChecking" = some ['1'] then [StatusTag.checking]
  else if raw "isComplete" = some ['1'] ∧ raw "isOpen" = some ['1'] ∧
      raw "state" = some ['1'] then [StatusTag.complete, StatusTag.seeding]
  else if raw "isComplete" = some ['1'] ∧ raw "isOpen" = some ['1'] ∧
      raw "state" = some ['0'] then [StatusTag.paused]
  else if raw "isComplete" = some ['1'] ∧ raw "isOpen" = some ['0'] then
    [StatusTag.stopped, StatusTag.complete]
  else if raw "isComplete" = some ['0'] ∧ raw "isOpen" = some ['1'] ∧
      raw "state" = some ['1'] then [StatusTag.downloading]
  else if raw "isComplete" = some ['0'] ∧ raw "isOpen" = some ['1'] ∧
      raw "state" = some ['0'] then [StatusTag.paused]
  else if raw "isComplete" = some ['0'] ∧ raw "isOpen" = some ['0'] then
    [StatusTag.stopped]
  else []

/-- Spec §4.2: the always-appended activity tag — `inactive` exactly when
both rates are the string `"0"`, otherwise `active`. -/
def specActivityTag (raw : ClientData) : StatusTag :=
  if raw "uploadRate" = some ['0'] ∧ raw "downloadRate" = some ['0'] then StatusTag.inactive
  else StatusTag.active

/-- C1: on every raw snapshot (whose `message` field is a string, as the
data model specifies), `getStatus` evaluates the seven flag cases in the
spec's priority order and produces exactly the ordered primary tags of
spec §4.2, followed by the `error` tag when the message is non-empty and
the activity tag. -/
theorem getStatus_priority_order (raw : ClientData) (m : List Char)
    (h : raw "message" = some m) :
    getStatus raw =
      Except.ok (specPrimaryTags raw ++ (if m ≠ [] then [StatusTag.error] else []) ++
        [specActivityTag raw]) := by
  simp only [getStatus, specPrimaryTags, specActivityTag, h, List.append_assoc]

/-- A concrete full snapshot used by the witnesses: a complete, open,
seeding torrent with no transfer rates, an empty message, two encoded
tags, one tracker and delimiter-packed peer counts. -/
def sampleRaw : ClientData := fun k =>
  if k = "isHashChecking" then some ['0']
  else if k = "isComplete" then some ['1']
  else if k = "isOpen" then some ['1']
  else if k = "state" then some ['1']
  else if k = "uploadRate" then some ['0']
  else if k = "downloadRate" then some ['0']
  else if k = "message" then some []
  else if k = "tags" then some ['b', ',', 'a']
  else if k = "trackers" then some "tracker.example.com".toList
  else if k = "totalPeers" then some "5@!@10".toList
  else if k = "totalSeeds" then some "3@!@7".toList
  else if k = "bytesDone" then some ['5', '0']
  else if k = "sizeBytes" then some ['1', '0', '0']
  else if k = "added" then some ['0']
  else if k = "creationDate" then some "2020-01-01".toList
  else if k = "hash" then some "abc".toList
  else none

/-- C1 witness: the theorem applied to the concrete snapshot — a complete,
open, seeding, inactive torrent gets exactly `[complete, seeding,
inactive]`. -/
theorem getStatus_priority_order_witness :
    getStatus sampleRaw =
      Except.ok [StatusTag.complete, StatusTag.seeding, StatusTag.inactive] := by
  rw [getStatus_priority_order sampleRaw [] rfl]
  rfl

/-- C2: whenever `getStatus` completes, the returned list ends with exactly
one activity tag — `inactive` when both rates are `"0"`, otherwise
`active` — and contains no other occurrence of either tag; in particular
the list is never empty. -/
theorem getStatus_activity_tag (raw : ClientData) (s : List StatusTag)
    (h : getStatus raw = Except.ok s) :
    s ≠ [] ∧ ∃ l, s = l ++ [specActivityTag raw] ∧
      StatusTag.active ∉ l ∧ StatusTag.inactive ∉ l := by
  cases hm : raw "message" with
  | none => simp [getStatus, hm] at h
  | some m =>
    simp only [getStatus, hm] at h
    injection h with h
    subst h
    refine ⟨?_, ?_⟩
    · simp
    · refine ⟨(if raw "isHashChecking" = some ['1'] then [StatusTag.checking]
        else if raw "isComplete" = some ['1'] ∧ raw "isOpen" = some ['1'] ∧
            raw "state" = some ['1'] then [StatusTag.complete, StatusTag.seeding]
        else if raw "isComplete" = some ['1'] ∧ raw "isOpen" = some ['1'] ∧
            raw "state" = some ['0'] then [StatusTag.paused]
        else if raw "isComplete" = some ['1'] ∧ raw "isOpen" = some ['0'] then
          [StatusTag.stopped, StatusTag.complete]
        else if raw "isComplete" = some ['0'] ∧ raw "isOpen" = some ['1'] ∧
            raw "state" = some ['1'] then [StatusTag.downloading]
        else if raw "isComplete" = some ['0'] ∧ raw "isOpen" = some ['1'] ∧
            raw "state" = some ['0'] then [StatusTag.paused]
        else if raw "isComplete" = some ['0'] ∧ raw "isOpen" = some ['0'] then
          [StatusTag.stopped]
        else []) ++ (if m ≠ [] then [StatusTag.error] else []), ?_, ?_, ?_⟩
      · simp [specActivityTag]
      · split_ifs <;> simp
      · split_ifs <;> simp

/-- C2 witness: the theorem applied to the concrete snapshot; with both
rates `"0"` the activity tag there is `inactive`. -/
theorem getStatus_activity_tag_witness :
    ([StatusTag.complete, StatusTag.seeding, StatusTag.inactive] : List StatusTag) ≠ [] ∧
      ∃ l, ([StatusTag.complete, StatusTag.seeding, StatusTag.inactive] : List StatusTag)
          = l ++ [specActivityTag sampleRaw] ∧
        StatusTag.active ∉ l ∧ StatusTag.inactive ∉ l :=
  getStatus_activity_tag sampleRaw [StatusTag.complete, StatusTag.seeding, StatusTag.inactive]
    (by rfl)

/-! ## Claim C6 — tag derivation -/

instance : IsTotal (List Char) tokenLe := inferInstanceAs (IsTotal (List Char) (· ≤ ·))

instance : IsTrans (List Char) tokenLe := inferInstanceAs (IsTrans (List Char) (· ≤ ·))

/-- C6: `getTags` returns the empty list on the empty string (so empty
input never yields a list containing an empty string), and otherwise
splits on commas, sorts the raw encoded tokens lexicographically (a stable
sort of a permutation of the split), and only then percent-decodes each
token, returning the decoded tokens in the sorted-by-encoded-form order. -/
theorem getTags_sorted_before_decode :
    getTags (some []) = Except.ok [] ∧
      ∀ (t : List Char) (ds : List (List Char)), t ≠ [] →
        ((splitOnChar ',' t).insertionSort tokenLe).mapM decodeURIComp = some ds →
        getTags (some t) = Except.ok ds ∧
          ((splitOnChar ',' t).insertionSort tokenLe).Perm (splitOnChar ',' t) ∧
          List.Sorted tokenLe ((splitOnChar ',' t).insertionSort tokenLe) := by
  refine ⟨rfl, fun t ds ht hd => ⟨?_, List.perm_insertionSort tokenLe _,
    List.sorted_insertionSort tokenLe _⟩⟩
  simp only [getTags, if_neg ht]
  rw [hd]

/-- C6 witness: the theorem applied to the raw string `"b,a"` — split,
sorted pre-decoding, decoded to `["a", "b"]`. -/
theorem getTags_sorted_before_decode_witness :
    getTags (some ['b', ',', 'a']) = Except.ok [['a'], ['b']] ∧
      ((splitOnChar ',' ['b', ',', 'a']).insertionSort tokenLe).Perm
        (splitOnChar ',' ['b', ',', 'a']) ∧
      List.Sorted tokenLe ((splitOnChar ',' ['b', ',', 'a']).insertionSort tokenLe) :=
  getTags_sorted_before_decode.2 ['b', ',', 'a'] [['a'], ['b']] (by simp) (by rfl)

/-! ## Claim C7 — tracker registrable-domain extraction -/

/-- Spec §4.6 steps 3–5, written from the spec's words: split the hostname
on `.`; keep the rightmost 2 labels by default, or the rightmost 3 when
the hostname has more than 2 labels and the label at position
`length - 2` has at most 3 characters; join the kept labels with `.`. -/
def specRegistrableDomain (hostname : List Char) : List Char :=
  let labels := splitOnChar '.' hostname
  let desiredSubsets :=
    if labels.length > 2 ∧ (labels.getD (labels.length - 2) []).length ≤ 3 then 3
    else 2
  List.intercalate ['.'] (labels.reverse.take desiredSubsets).reverse

/-- Spec §4.6: split entries on the reserved delimiter, skip entries whose
hostname pattern does not match, and append each matched hostname's
registrable domain in tracker order — no de-duplication, no sorting. -/
def specTrackers (domainName : List Char → Option (List Char)) (s : List Char) :
    List (List Char) :=
  (splitOnSubstr atDelim s).filterMap
    (fun tracker => (domainName tracker).map specRegistrableDomain)

/-- Dropping all but the last `n` elements keeps exactly the rightmost
`n` elements. -/
theorem drop_length_sub_eq_rtake {α : Type*} (l : List α) (n : Nat) :
    l.drop (l.length - n) = (l.reverse.take n).reverse := by
  rw [← List.rtake_eq_reverse_take_reverse]
  rfl

/-- The source's `slice(-desiredSubsets)` equals the spec's
rightmost-labels formulation. -/
theorem trimDomain_eq_specRegistrableDomain (d : List Char) :
    trimDomain d = specRegistrableDomain d := by
  unfold trimDomain specRegistrableDomain
  simp only [drop_length_sub_eq_rtake]

/-- The `trackers.forEach` accumulation is the `filterMap` of the spec,
provided the matcher never captures an empty hostname (the source also
skips a falsy empty capture). -/
theorem getTrackers_foldl_eq (domainName : List Char → Option (List Char))
    (hm : ∀ t, domainName t ≠ some []) (l : List (List Char)) :
    ∀ acc : List (List Char),
      l.foldl (fun trackerDomains tracker =>
        match domainName tracker with
        | some domain =>
          if domain = [] then trackerDomains else trackerDomains ++ [trimDomain domain]
        | none => trackerDomains) acc
      = acc ++ l.filterMap (fun t => (domainName t).map specRegistrableDomain) := by
  induction l with
  | nil => intro acc; simp
  | cons t ts ih =>
    intro acc
    simp only [List.foldl_cons, List.filterMap_cons]
    cases hmt : domainName t with
    | none => simpa using ih acc
    | some d =>
      have hd : d ≠ [] := fun h => hm t (h ▸ hmt)
      simp only [hmt, if_neg hd, Option.map_some']
      rw [ih (acc ++ [trimDomain d]), trimDomain_eq_specRegistrableDomain]
      simp

/-- C7: for every raw trackers string and every hostname matcher that
captures non-empty hostnames, `getTrackers` splits on the reserved
delimiter, skips unmatched entries, keeps the rightmost 2 labels of each
matched hostname (3 when there are more than 2 labels and the label at
position `length - 2` has length at most 3), and appends the results in
tracker order with no de-duplication and no sorting. -/
theorem getTrackers_registrable_domains (domainName : List Char → Option (List Char))
    (s : List Char) (hm : ∀ t, domainName t ≠ some []) :
    getTrackers domainName (some s) = Except.ok (specTrackers domainName s) := by
  show Except.ok ((splitOnSubstr atDelim s).foldl
      (fun trackerDomains tracker =>
        match domainName tracker with
        | some domain =>
          if domain = [] then trackerDomains else trackerDomains ++ [trimDomain domain]
        | none => trackerDomains) [])
    = Except.ok (specTrackers domainName s)
  rw [getTrackers_foldl_eq domainName hm _ []]
  rfl

/-- C7 witness: the theorem applied to a two-tracker string; the 4-label
host `a.b.co.uk` (second-to-last label `co` of length ≤ 3) keeps 3
labels, the 3-label host `tracker.example.com` keeps 2. -/
theorem getTrackers_registrable_domains_witness :
    getTrackers (fun t => if t = [] then none else some t)
        (some "a.b.co.uk@!@tracker.example.com".toList)
      = Except.ok ["b.co.uk".toList, "example.com".toList] := by
  rw [getTrackers_registrable_domains (fun t => if t = [] then none else some t)
    "a.b.co.uk@!@tracker.example.com".toList
    (fun t => by by_cases h : t = [] <;> simp [h])]
  rfl

/-! ## Builder lemmas shared by claims C3, C9 and C10 -/

/-- The conditions under which every used deriver completes: the string
fields read with string methods are present, and the tags tokens decode
(the arithmetic, status-flag and date derivers are total regardless). -/
def snapshotOk (raw : ClientData) : Prop :=
  (raw "message").isSome = true ∧ (raw "trackers").isSome = true ∧
    (raw "totalPeers").isSome = true ∧ (raw "totalSeeds").isSome = true ∧
    ∃ ds, getTags (raw "tags") = Except.ok ds

theorem getStatus_ok_of_message (raw : ClientData)
    (h : (raw "message").isSome = true) : ∃ ts, getStatus raw = Except.ok ts := by
  unfold getStatus
  cases hmo : raw "message" with
  | none => rw [hmo] at h; simp at h
  | some m => exact ⟨_, rfl⟩

theorem getPeerCount_ok_of_some (o : Option (List Char)) (h : o.isSome = true) :
    ∃ s, getPeerCount o = Except.ok s := by
  unfold getPeerCount
  cases o with
  | none => simp at h
  | some s => exact ⟨_, rfl⟩

theorem getTrackers_ok_of_some (domainName : List Char → Option (List Char))
    (o : Option (List Char)) (h : o.isSome = true) :
    ∃ l, getTrackers domainName o = Except.ok l := by
  unfold getTrackers
  cases o with
  | none => simp at h
  | some s => exact ⟨_, rfl⟩

/-- Every deriver reachable from the dispatch completes on a `snapshotOk`
snapshot, for keys that do not collide with the internal helpers. -/
theorem applyKey_ok (collab : Collab) (raw : ClientData) (k : String)
    (hraw : snapshotOk raw) (hk1 : jsCapitalize k ≠ "PeerCount")
    (hk2 : jsCapitalize k ≠ "ClientData") :
    ∃ v, applyKey collab raw k = Except.ok v := by
  obtain ⟨hmsg, htrk, hpeers, hseeds, hds⟩ := hraw
  unfold applyKey
  dsimp only
  split_ifs with h1 h2 h3 h4 h5 h6 h7 h8 h9
  · obtain ⟨ts, hts⟩ := getStatus_ok_of_message raw hmsg
    exact ⟨_, by rw [hts]; rfl⟩
  · obtain ⟨ds, hd⟩ := hds
    exact ⟨_, by rw [hd]; rfl⟩
  · obtain ⟨l, hl⟩ := getTrackers_ok_of_some collab.domainName (raw "trackers") htrk
    exact ⟨_, by rw [hl]; rfl⟩
  · obtain ⟨p, hp⟩ := getPeerCount_ok_of_some (raw "totalPeers") hpeers
    exact ⟨_, by rw [hp]; rfl⟩
  · obtain ⟨p, hp⟩ := getPeerCount_ok_of_some (raw "totalSeeds") hseeds
    exact ⟨_, by rw [hp]; rfl⟩
  · exact ⟨_, rfl⟩
  · exact ⟨_, rfl⟩
  · exact ⟨_, rfl⟩
  · exact ⟨_, rfl⟩
  · exact ⟨_, rfl⟩

/-- Object assignment only ever adds the assigned key to the key list. -/
theorem updateAssoc_map_fst (r : Record) (k : String) (v : JSVal) :
    (updateAssoc r k v).map Prod.fst =
      if r.any (fun p => p.1 = k) then r.map Prod.fst else r.map Prod.fst ++ [k] := by
  unfold updateAssoc
  split_ifs with h
  · rw [List.map_map]
    apply List.map_congr_left
    intro p _
    by_cases hp : p.1 = k
    · simp [hp]
    · simp [hp]
  · simp

/-- After `obj[k] = v` the key `k` is present. -/
theorem mem_updateAssoc_self (r : Record) (k : String) (v : JSVal) :
    k ∈ (updateAssoc r k v).map Prod.fst := by
  rw [updateAssoc_map_fst]
  split_ifs with h
  · rw [List.any_eq_true] at h
    obtain ⟨p, hp, hpk⟩ := h
    rw [decide_eq_true_eq] at hpk
    exact hpk ▸ List.mem_map_of_mem Prod.fst hp
  · simp

/-- Object assignment preserves already-present keys. -/
theorem mem_updateAssoc_mono (r : Record) (k : String) (v : JSVal) (k' : String)
    (h : k' ∈ r.map Prod.fst) : k' ∈ (updateAssoc r k v).map Prod.fst := by
  rw [updateAssoc_map_fst]
  split_ifs <;> simp [h]

/-- When every key's deriver completes, the build loop completes and the
produced record carries every processed key (and every key already in the
accumulator). -/
theorem buildLoop_ok (collab : Collab) (raw : ClientData) (keys : List String) :
    ∀ acc : Record,
      (∀ k ∈ keys, ∃ v, applyKey collab raw k = Except.ok v) →
      ∃ rec, buildLoop collab raw keys acc = Except.ok rec ∧
        (∀ k ∈ acc.map Prod.fst, k ∈ rec.map Prod.fst) ∧
        (∀ k ∈ keys, k ∈ rec.map Prod.fst) := by
  induction keys with
  | nil =>
    intro acc _
    exact ⟨acc, rfl, fun k hk => hk, by simp⟩
  | cons k ks ih =>
    intro acc h
    obtain ⟨v, hv⟩ := h k (by simp)
    obtain ⟨rec, hrec, hmono, hkeys⟩ := ih (updateAssoc acc k v)
      (fun k' hk' => h k' (by simp [hk']))
    refine ⟨rec, ?_, ?_, ?_⟩
    · simp only [buildLoop, hv]
      exact hrec
    · intro k' hk'
      exact hmono k' (mem_updateAssoc_mono acc k v k' hk')
    · intro k' hk'
      rcases List.mem_cons.mp hk' with rfl | hk'
      · exact hmono k' (mem_updateAssoc_self acc k' v)
      · exact hkeys k' hk'

/-- `buildRecord` completes with every requested key present whenever every
key's deriver completes. -/
theorem buildRecord_ok (collab : Collab) (raw : ClientData) (keys : List String)
    (h : ∀ k ∈ keys, ∃ v, applyKey collab raw k = Except.ok v) :
    ∃ rec, buildRecord collab raw keys = Except.ok rec ∧
      ∀ k ∈ keys, k ∈ rec.map Prod.fst := by
  obtain ⟨rec, hrec, _, hkeys⟩ := buildLoop_ok collab raw keys [] h
  exact ⟨rec, hrec, hkeys⟩

/-- Concrete collaborators for the witnesses: a constant duration
formatter and an identity hostname matcher that fails on the empty
string. -/
def sampleCollab : Collab :=
  ⟨fun _ => "1m".toList, fun t => if t = [] then none else some t⟩

/-! ## Claim C3 — tolerant construction -/

/-- C3 counterexample: on a snapshot with all fields missing, `getStatus`
throws (`message.length` is a `TypeError` on `undefined`), and record
construction with the default field list aborts instead of degrading to
defaults — contradicting the claim that missing fields never abort
construction. -/
theorem construction_aborts_on_missing_fields :
    getStatus (fun _ => none) = Except.error () ∧
      getClientData sampleCollab { lastUpdated := none, torrentData := none }
        (fun _ => none) ⟨RequestedData.absent, none⟩ = Except.error () :=
  ⟨rfl, rfl⟩

/-- C3 amended: the arithmetic and date derivers (`getEta`,
`getPercentComplete`, `getAdded`/`getCreationDate`) never throw (they are
total functions in this embedding), and whenever `message`, `trackers`,
`totalPeers`, `totalSeeds` are present as strings and the `tags` field is
present with decodable tokens, every deriver completes and default record
construction runs to completion with all 31 default fields present as
keys. -/
theorem record_construction_completes (collab : Collab) (st : TorrentState)
    (raw : ClientData) (ct : Option ℚ) (h : snapshotOk raw) :
    ∃ rec call,
      getClientData collab st raw ⟨RequestedData.absent, ct⟩ = Except.ok (rec, call) ∧
        ∀ k ∈ DEFAULT_DATA_KEYS, k ∈ rec.map Prod.fst := by
  have hcap : ∀ k ∈ DEFAULT_DATA_KEYS,
      jsCapitalize k ≠ "PeerCount" ∧ jsCapitalize k ≠ "ClientData" := by decide
  have hkeys : ∀ k ∈ DEFAULT_DATA_KEYS, ∃ v, applyKey collab raw k = Except.ok v :=
    fun k hk => applyKey_ok collab raw k h (hcap k hk).1 (hcap k hk).2
  obtain ⟨rec, hrec, hpres⟩ := buildRecord_ok collab raw DEFAULT_DATA_KEYS hkeys
  refine ⟨rec, (dataGetter st, rec), ?_, hpres⟩
  unfold getClientData
  dsimp only [resolveRequestedData]
  rw [hrec]

/-- C3 witness: the amended theorem applied to the concrete full
snapshot. -/
theorem record_construction_completes_witness :
    ∃ rec call,
      getClientData sampleCollab { lastUpdated := none, torrentData := none }
          sampleRaw ⟨RequestedData.absent, none⟩ = Except.ok (rec, call) ∧
        ∀ k ∈ DEFAULT_DATA_KEYS, k ∈ rec.map Prod.fst :=
  record_construction_completes sampleCollab { lastUpdated := none, torrentData := none }
    sampleRaw none ⟨rfl, rfl, rfl, rfl, ⟨[['a'], ['b']], rfl⟩⟩

/-! ## Claim C9 — field selection -/

/-- C9 counterexample: a present-but-falsy `requestedData` (such as
`null`, `0`, `""` or `false`) is not an array, yet the `else if
(opts.requestedData)` guard is falsy, so the defaults are used with **no**
warning — contradicting the claim that every present non-array emits a
warning. -/
theorem requestedData_falsy_defaults_without_warning :
    resolveRequestedData RequestedData.otherFalsy = (DEFAULT_DATA_KEYS, false) := rfl

/-- C9 amended: an absent `requestedData` uses the 31-field default list;
an array is used verbatim; a truthy non-array warns and falls back to the
defaults, while a falsy non-array falls back silently; and for snapshots
on which the derivers complete, construction completes with every resolved
field present as a key — provided no requested key capitalizes to an
internal helper name (`PeerCount`, `ClientData`, which dispatch to helpers
that throw). -/
theorem getClientData_field_selection (collab : Collab) (raw : ClientData)
    (opts : JSOpts) (hraw : snapshotOk raw)
    (hkeys : ∀ k ∈ (resolveRequestedData opts.requestedData).1,
      jsCapitalize k ≠ "PeerCount" ∧ jsCapitalize k ≠ "ClientData") :
    ((opts.requestedData = RequestedData.absent ∨
        opts.requestedData = RequestedData.otherTruthy ∨
        opts.requestedData = RequestedData.otherFalsy) →
      (resolveRequestedData opts.requestedData).1 = DEFAULT_DATA_KEYS) ∧
      (∀ l, opts.requestedData = RequestedData.arr l →
        (resolveRequestedData opts.requestedData).1 = l) ∧
      ((resolveRequestedData opts.requestedData).2 = true ↔
        opts.requestedData = RequestedData.otherTruthy) ∧
      ∀ st : TorrentState, ∃ rec call,
        getClientData collab st raw opts = Except.ok (rec, call) ∧
          ∀ k ∈ (resolveRequestedData opts.requestedData).1, k ∈ rec.map Prod.fst := by
  refine ⟨?_, ?_, ?_, ?_⟩
  · rintro (h | h | h) <;> simp [h, resolveRequestedData]
  · intro l h
    simp [h, resolveRequestedData]
  · cases h : opts.requestedData <;> simp [resolveRequestedData]
  · intro st
    have hk : ∀ k ∈ (resolveRequestedData opts.requestedData).1,
        ∃ v, applyKey collab raw k = Except.ok v :=
      fun k hkm => applyKey_ok collab raw k hraw (hkeys k hkm).1 (hkeys k hkm).2
    obtain ⟨rec, hrec, hpres⟩ := buildRecord_ok collab raw _ hk
    refine ⟨rec, (dataGetter st, rec), ?_, hpres⟩
    unfold getClientData
    dsimp only
    rw [hrec]

/-- C9 witness: the amended theorem applied with the verbatim request
`["hash", "status"]` on the concrete snapshot. -/
theorem getClientData_field_selection_witness :
    ∃ rec call,
      getClientData sampleCollab { lastUpdated := none, torrentData := none }
          sampleRaw ⟨RequestedData.arr ["hash", "status"], none⟩ = Except.ok (rec, call) ∧
        ∀ k ∈ (resolveRequestedData (RequestedData.arr ["hash", "status"])).1,
          k ∈ rec.map Prod.fst :=
  (getClientData_field_selection sampleCollab sampleRaw
      ⟨RequestedData.arr ["hash", "status"], none⟩
      ⟨rfl, rfl, rfl, rfl, ⟨[['a'], ['b']], rfl⟩⟩ (by decide)).2.2.2
    { lastUpdated := none, torrentData := none }

/-! ## Claim C10 — notifier previous-record argument -/

/-- C10: the previous-record argument handed to the notifier is the value
of the copying `data` getter on the state **before** the new record is
committed: the empty record when `torrentData` was never assigned, and the
prior record's entries on an update; the new record is committed only
afterwards, and the constructor runs exactly the update path starting from
the fresh all-`undefined` state. -/
theorem notifier_previous_record (collab : Collab) (raw : ClientData) (opts : JSOpts)
    (now : ℚ) (st st' : TorrentState) (prev next : Record)
    (h : runUpdate collab st raw opts now = Except.ok (st', (prev, next))) :
    prev = dataGetter st ∧
      (st.torrentData = none → prev = []) ∧
      (∀ r, st.torrentData = some r → prev = r) ∧
      st'.torrentData = some next ∧
      construct collab (some raw) opts now =
        (runUpdate collab { lastUpdated := none, torrentData := none } raw opts now).map
          (fun p => (p.1, some p.2)) := by
  unfold runUpdate getClientData at h
  dsimp only at h
  cases hb : buildRecord collab raw (resolveRequestedData opts.requestedData).1 with
  | error e =>
    rw [hb] at h
    cases h
  | ok td =>
    rw [hb] at h
    injection h with h
    rw [Prod.mk.injEq, Prod.mk.injEq] at h
    obtain ⟨hst, hprev, hnext⟩ := h
    subst hst
    subst hprev
    subst hnext
    refine ⟨rfl, ?_, ?_, rfl, ?_⟩
    · intro hn
      simp [dataGetter, hn]
    · intro r hr
      simp [dataGetter, hr]
    · unfold construct
      cases hr : runUpdate collab { lastUpdated := none, torrentData := none } raw opts now with
      | error e => simp [hr, Except.map]
      | ok p =>
        obtain ⟨a, b⟩ := p
        simp [hr, Except.map]

/-- C10 witness: the theorem applied to a concrete update of a torrent
whose prior record is `[("old", undefined)]`, requesting only `hash`: the
notifier receives the prior record, and the new record is committed
afterwards. -/
theorem notifier_previous_record_witness :
    ([("old", JSVal.undef)] : Record)
        = dataGetter { lastUpdated := none, torrentData := some [("old", JSVal.undef)] } ∧
      (({ lastUpdated := none, torrentData := some [("old", JSVal.undef)] }
          : TorrentState).torrentData = none → [("old", JSVal.undef)] = ([] : Record)) ∧
      (∀ r, ({ lastUpdated := none, torrentData := some [("old", JSVal.undef)] }
          : TorrentState).torrentData = some r → ([("old", JSVal.undef)] : Record) = r) ∧
      ({ lastUpdated := some 1, torrentData := some [("hash", JSVal.str "abc".toList)] }
          : TorrentState).torrentData = some [("hash", JSVal.str "abc".toList)] ∧
      construct sampleCollab (some sampleRaw) ⟨RequestedData.arr ["hash"], some 1⟩ 1 =
        (runUpdate sampleCollab { lastUpdated := none, torrentData := none } sampleRaw
            ⟨RequestedData.arr ["hash"], some 1⟩ 1).map (fun p => (p.1, some p.2)) :=
  notifier_previous_record sampleCollab sampleRaw ⟨RequestedData.arr ["hash"], some 1⟩ 1
    { lastUpdated := none, torrentData := some [("old", JSVal.undef)] }
    { lastUpdated := some 1, torrentData := some [("hash", JSVal.str "abc".toList)] }
    [("old", JSVal.undef)] [("hash", JSVal.str "abc".toList)] (by rfl)

end Flood

